import Mathlib

/-!
Verification of the `gtkcord/cache` package (cache.go) of the gtkcord3
repository: a disk-backed cache for remote image assets.

Go strings are modelled as rune sequences (`List Char`), Go `int` as `Int`
with its fixed-width arithmetic made explicit where it matters: `MaxSize`
computes through `wrap64` (two's-complement reduction into the 64-bit
range) and Go's truncated division `Int.tdiv`.  File contents are `List
Nat` byte sequences, and the file system is a partial map from paths to
contents.  External collaborators of cache.go (the `net/url`
parser, the Unicode letter/digit tables, the HTTP transport, the gdk pixbuf
decoder, the file system write outcome) are abstracted as oracle fields of
an `Env` record: cache.go only branches on their results, never inspects
their internals, so every behaviour of cache.go is a function of these
oracles.  Effects (throttle acquire/release, network GETs, disk writes and
removals) are recorded in an explicit event trace.
-/

/-- A Go string, viewed as its sequence of runes (the unit on which
`strings.Map`, and hence `SanitizeString`, operates). -/
abbrev GoStr := List Char

/-- Raw file/body contents: a sequence of bytes. -/
abbrev Bytes := List Nat

/-- An opaque processor handle: cache.go never inspects a `Processor`, it
only passes the slice through to the processing functions, so an abstract
identifier suffices. -/
abbrev Processor := Nat

/-- The file-system contents: a partial map from paths to file bytes. -/
abbrev Disk := GoStr → Option Bytes

/-- Observable effects of the cache pipeline, in order of occurrence. -/
inductive Ev where
  /-- a throttler permit was acquired -/
  | acquire : Ev
  /-- a throttler permit was released -/
  | release : Ev
  /-- an HTTP GET for the given URL was issued -/
  | netGet (url : GoStr) : Ev
  /-- the file at the given path was written -/
  | diskWrite (path : GoStr) : Ev
  /-- the file at the given path was removed -/
  | diskRemove (path : GoStr) : Ev
deriving DecidableEq

/-- Error outcomes of the download/bind pipeline, one per `return err`
site of cache.go. -/
inductive DlErr where
  /-- `throttler.Acquire` failed (context cancelled) -/
  | cancelled : DlErr
  /-- `http.NewRequestWithContext` failed -/
  | badRequest : DlErr
  /-- `Client.Do` failed (transport error) -/
  | transport : DlErr
  /-- response status outside 200..299 -/
  | badStatus (code : Int) : DlErr
  /-- `ioutil.ReadAll` on the body failed -/
  | readFailed : DlErr
  /-- the processor chain failed -/
  | processFailed : DlErr
  /-- `ioutil.WriteFile` failed -/
  | writeFailed : DlErr
  /-- decoding the cached file failed after a successful download -/
  | decodeFailed : DlErr
deriving DecidableEq

/-- Result of `net/url.Parse`: the three pieces of a parsed URL that
`TransformURL` consumes (`u.Hostname()`, `u.EscapedPath()`, `u.RawQuery`). -/
structure UrlParts where
  hostname : GoStr
  escapedPath : GoStr
  rawQuery : GoStr
deriving DecidableEq

/-- Oracles for everything outside cache.go that its control flow branches
on.  cache.go treats each of these as a black box, so its behaviour is a
pure function of this record. -/
structure Env where
  /-- `os.TempDir()` -/
  tempDir : GoStr
  /-- `net/url.Parse`: `none` models a parse error -/
  urlParse : GoStr → Option UrlParts
  /-- `unicode.IsLetter` -/
  isLetter : Char → Bool
  /-- `unicode.IsDigit` -/
  isDigit : Char → Bool
  /-- whether `throttler.Acquire(ctx, 1)` succeeds (false: ctx cancelled) -/
  acquireOk : Bool
  /-- whether `http.NewRequestWithContext` succeeds -/
  newRequestOk : Bool
  /-- the transport: `Client.Do` on a URL yields `none` on a transport
  error, or the response status code and body bytes -/
  net : GoStr → Option (Int × Bytes)
  /-- whether `ioutil.ReadAll` consumes the body successfully -/
  readAllOk : Bool
  /-- Modelled from the spec: `ProcessStream` (processor.go is not part of
  the sources) — the processor chain applied to a byte stream, which may
  fail (`ProcessingFailed`), per the ProcessorChain contract. -/
  processStream : Bytes → List Processor → Option Bytes
  /-- Modelled from the spec: `ProcessAnimationStream`, the frame-wise
  variant of the processor chain for animated sources. -/
  processAnimationStream : Bytes → List Processor → Option Bytes
  /-- whether the gdk pixbuf machinery decodes the given bytes successfully
  (the requested bounding box only rescales, it never affects success) -/
  decodeOk : Bytes → Bool
  /-- whether `ioutil.WriteFile` succeeds -/
  writeOk : Bool

/-! ## Go standard-library string operations used by cache.go -/

/-- Go `strings.HasPrefix s pre`. -/
def goHasPref : GoStr → GoStr → Bool
  | _, [] => true
  | [], _ :: _ => false
  | c :: s, p :: ps => c == p && goHasPref s ps

/-- Go `strings.Contains s sub` (substring containment). -/
def goContains : GoStr → GoStr → Bool
  | s, sub =>
    if goHasPref s sub then true
    else match s with
      | [] => false
      | _ :: rest => goContains rest sub

/-- The scanning loop of Go `strings.Replace(s, old, new, -1)` for a
non-empty pattern: leftmost, non-overlapping replacement.  The fuel
argument (instantiated with the string length, which the loop never
exceeds) makes the recursion structural. -/
def goReplLoop (old new : GoStr) : Nat → GoStr → GoStr
  | _, [] => []
  | 0, s => s
  | n + 1, c :: rest =>
    if goHasPref (c :: rest) old then
      new ++ goReplLoop old new n (rest.drop (old.length - 1))
    else
      c :: goReplLoop old new n rest

/-- Go `strings.Replace(s, old, new, -1)`: replace every non-overlapping
occurrence of `old` by `new`; an empty `old` inserts `new` at the start and
after every rune. -/
def goReplaceAll (s old new : GoStr) : GoStr :=
  if old = [] then new ++ (s.map (fun c => c :: new)).flatten
  else goReplLoop old new s.length s

/-- Go `filepath.Join` for the clean, slash-free components that cache.go
joins: concatenation with a single separator. -/
def pathJoin (a b : GoStr) : GoStr := a ++ '/' :: b

/-! ## Constants of cache.go -/

/-- `CacheHash = "hackadoll3"` (the version hash; changing it invalidates
the whole cache). -/
def CacheHash : GoStr := "hackadoll3".toList

/-- The cache name constant `"gtkcord3"` of cache.go. -/
def CachePref : GoStr := "gtkcord3".toList

/-- `DirName = CachePrefix + "-" + CacheHash`. -/
def DirName : GoStr := CachePref ++ '-' :: CacheHash

/-- `Path = filepath.Join(Temp, DirName)`: the cache root. -/
def cachePath (env : Env) : GoStr := pathJoin env.tempDir DirName

/-! ## cleanUpCache -/

/-- `cleanUpCache`, given the names listed in the temp directory: returns
the entries the sweep deletes (those whose name has the cache prefix
followed by `-` and that are not the current cache directory). -/
def cleanUpCache (entries : List GoStr) : List GoStr :=
  entries.filter (fun d => goHasPref d (CachePref ++ ['-']) && d != DirName)

/-! ## SanitizeString and TransformURL -/

/-- The rune mapping of `SanitizeString`: keep letters, digits, `#` and
`.`, replace everything else by `_`. -/
def sanitizeRune (isL isD : Char → Bool) (r : Char) : Char :=
  if isL r || isD r || r == '#' || r == '.' then r else '_'

/-- `SanitizeString`: `strings.Map` of `sanitizeRune` over the runes. -/
def SanitizeString (isL isD : Char → Bool) (s : GoStr) : GoStr :=
  s.map (sanitizeRune isL isD)

/-- `TransformURL`: derive the on-disk cache key of a URL.  On a parse
error the raw string is sanitized directly under the cache root; otherwise
the key lives in a per-host directory (the `MkdirAll` side effect is
logged-only in the source and affects no result).  `sizeSuffix` is declared
and never assigned in the source, hence always empty. -/
def TransformURL (env : Env) (s : GoStr) : GoStr :=
  let sizeSuffix : GoStr := []
  match env.urlParse s with
  | none => pathJoin (cachePath env) (SanitizeString env.isLetter env.isDigit s ++ sizeSuffix)
  | some u =>
    let path := pathJoin (cachePath env) u.hostname
    pathJoin path (SanitizeString env.isLetter env.isDigit (u.escapedPath ++ '?' :: u.rawQuery) ++ sizeSuffix)

/-- The cache key as the spec words it: derived from the URL alone with no
size component at all (stated for comparison with `TransformURL`, whose
source text appends a size-suffix variable). -/
def cacheKeySpecWords (env : Env) (s : GoStr) : GoStr :=
  match env.urlParse s with
  | none => pathJoin (cachePath env) (SanitizeString env.isLetter env.isDigit s)
  | some u =>
    pathJoin (pathJoin (cachePath env) u.hostname)
      (SanitizeString env.isLetter env.isDigit (u.escapedPath ++ '?' :: u.rawQuery))

/-! ## MaxSize -/

/-- Two's-complement wrap of an integer into the Go 64-bit `int` range
`[-2^63, 2^63)`, modelling Go's fixed-width wrapping arithmetic. -/
def wrap64 (a : Int) : Int := (a + 2 ^ 63) % 2 ^ 64 - 2 ^ 63

/-- Go `int` (int64) multiplication: multiply, then wrap. -/
def goMul (a b : Int) : Int := wrap64 (a * b)

/-- Go `int` (int64) division: truncation toward zero, then wrap (per the
Go spec, `MinInt64 / -1` wraps back to `MinInt64`).  Division by zero
panics in Go and is never reached by the verified properties. -/
def goDiv (a b : Int) : Int := wrap64 (Int.tdiv a b)

/-- `MaxSize`: clamp `(w, h)` to the bounding box `(maxW, maxH)` keeping
the aspect ratio, in Go 64-bit wrapping integer arithmetic. -/
def MaxSize (w h maxW maxH : Int) : Int × Int :=
  if w < maxW ∧ h < maxH then (w, h)
  else if w > h then (maxW, goDiv (goMul h maxW) w)
  else (goDiv (goMul w maxH) h, maxH)

/-! ## The fetch pipeline: download, get -/

/-- Point update of the file system: `ioutil.WriteFile(dst, b, 0644)`. -/
def storeWrite (disk : Disk) (p : GoStr) (b : Bytes) : Disk :=
  fun q => if q = p then some b else disk q

/-- Point removal: `os.Remove(dst)`. -/
def storeRemove (disk : Disk) (p : GoStr) : Disk :=
  fun q => if q = p then none else disk q

/-- `download(ctx, url, pp, gif)`: acquire a throttler permit (released by
`defer` on every path after a successful acquire), issue the GET, reject a
status outside 200..299, then either pipe the body through the processor
chain (frame-wise when `gif`) or read it whole.  Returns the body bytes or
the error, together with the event trace. -/
def download (env : Env) (url : GoStr) (pp : List Processor) (gif : Bool) :
    Except DlErr Bytes × List Ev :=
  if env.acquireOk = false then
    (Except.error DlErr.cancelled, [])
  else
    let inner : Except DlErr Bytes × List Ev :=
      if env.newRequestOk = false then (Except.error DlErr.badRequest, [])
      else
        match env.net url with
        | none => (Except.error DlErr.transport, [Ev.netGet url])
        | some (status, body) =>
          if status < 200 ∨ status > 299 then
            (Except.error (DlErr.badStatus status), [Ev.netGet url])
          else if pp.length > 0 then
            match (if gif then env.processAnimationStream body pp
                   else env.processStream body pp) with
            | none => (Except.error DlErr.processFailed, [Ev.netGet url])
            | some b => (Except.ok b, [Ev.netGet url])
          else if env.readAllOk then (Except.ok body, [Ev.netGet url])
          else (Except.error DlErr.readFailed, [Ev.netGet url])
    (inner.1, Ev.acquire :: inner.2 ++ [Ev.release])

/-- `get(ctx, url, dst, pp, gif)`: download, then write the bytes to `dst`
("doesn't check if the file exists").  On a failed write the source keeps
whatever bytes were flushed; no claim depends on that partial content, and
the model leaves the disk unchanged there. -/
def get' (env : Env) (disk : Disk) (url dst : GoStr) (pp : List Processor)
    (gif : Bool) : Except DlErr Unit × Disk × List Ev :=
  match download env url pp gif with
  | (Except.error e, tr) => (Except.error e, disk, tr)
  | (Except.ok b, tr) =>
    if env.writeOk then
      (Except.ok (), storeWrite disk dst b, tr ++ [Ev.diskWrite dst])
    else
      (Except.error DlErr.writeFailed, disk, tr)

/-! ## Decoding from the disk cache -/

/-- `getPixbufFromFile(path, w, h)`: open the file and stream it into a
pixbuf loader; `w`,`h` only steer the `size-prepared` rescale through
`MaxSize` and never affect decode success, so success is: the file exists
and its bytes decode. -/
def getPixbufFromFile (env : Env) (disk : Disk) (path : GoStr)
    (_w _h : Int) : Bool :=
  match disk path with
  | none => false
  | some b => env.decodeOk b

/-- `setImageFromFile(img, path, gif, w, h)`: same success condition as
`getPixbufFromFile` — the file exists and its bytes decode (the loader copy
fails on undecodable bytes). -/
def setImageFromFile (env : Env) (disk : Disk) (path : GoStr) (_gif : Bool)
    (_w _h : Int) : Bool :=
  match disk path with
  | none => false
  | some b => env.decodeOk b

/-! ## The bind operations -/

/-- `GetPixbufScaled(url, w, h, pp...)`: cache-hit check, then fetch into
the cache file, then decode it.  Returns the outcome, the resulting file
system and the event trace. -/
def GetPixbufScaled (env : Env) (disk : Disk) (url : GoStr) (w h : Int)
    (pp : List Processor) : Except DlErr Unit × Disk × List Ev :=
  let dst := TransformURL env url
  if getPixbufFromFile env disk dst w h then (Except.ok (), disk, [])
  else
    match get' env disk url dst pp false with
    | (Except.error e, disk2, tr) => (Except.error e, disk2, tr)
    | (Except.ok _, disk2, tr) =>
      if getPixbufFromFile env disk2 dst w h then (Except.ok (), disk2, tr)
      else (Except.error DlErr.decodeFailed, disk2, tr)

/-- The URL rewrite at the top of `SetImageScaledContext`: when the URL
contains `"gif"`, every occurrence is replaced by `"png"`. -/
def bindRequestURL (url : GoStr) : GoStr :=
  if goContains url ("gif".toList) then goReplaceAll url ("gif".toList) ("png".toList)
  else url

/-- The animated flag actually used by `SetImageScaledContext`: computed as
`strings.Contains(url, "gif")`, then forced to `false` whenever it was
`true`. -/
def bindRequestGif (url : GoStr) : Bool :=
  if goContains url ("gif".toList) then false
  else goContains url ("gif".toList)

/-- `SetImageScaledContext(ctx, url, img, w, h, pp...)`: rewrite the URL
and flag, cache-hit check, fetch into the cache file, decode it; if the
freshly downloaded file fails to decode, remove it and fail. -/
def SetImageScaledContext (env : Env) (disk : Disk) (url : GoStr)
    (w h : Int) (pp : List Processor) : Except DlErr Unit × Disk × List Ev :=
  let url2 := bindRequestURL url
  let gif := bindRequestGif url
  let dst := TransformURL env url2
  if setImageFromFile env disk dst gif w h then (Except.ok (), disk, [])
  else
    match get' env disk url2 dst pp gif with
    | (Except.error e, disk2, tr) => (Except.error e, disk2, tr)
    | (Except.ok _, disk2, tr) =>
      if setImageFromFile env disk2 dst gif w h then (Except.ok (), disk2, tr)
      else (Except.error DlErr.decodeFailed, storeRemove disk2 dst,
            tr ++ [Ev.diskRemove dst])

/-! ## Arithmetic facts about Go integer division -/

/-- Floor characterization of Go division for nonnegative dividend and
positive divisor: `b * (a tdiv b) ≤ a < b * (a tdiv b + 1)`. -/
theorem tdiv_floor_bounds (a b : Int) (ha : 0 ≤ a) (hb : 0 < b) :
    b * Int.tdiv a b ≤ a ∧ a < b * (Int.tdiv a b + 1) := by
  rw [Int.tdiv_eq_ediv ha (le_of_lt hb)]
  have h1 := Int.ediv_add_emod a b
  have h2 := Int.emod_nonneg a (ne_of_gt hb)
  have h3 := Int.emod_lt_of_pos a hb
  constructor
  · linarith
  · have h4 : b * (a / b + 1) = b * (a / b) + b := by ring
    linarith

/-- Identity of `wrap64` on values already inside the int64 range. -/
theorem wrap64_id (a : Int) (h1 : -(2 ^ 63) ≤ a) (h2 : a < 2 ^ 63) :
    wrap64 a = a := by
  have hpow : (2 : Int) ^ 64 = 2 ^ 63 + 2 ^ 63 := by norm_num
  rw [wrap64, Int.emod_eq_of_lt (by linarith) (by linarith)]
  ring

/-- C2 (amended): for strictly positive `(w, h, maxW, maxH)` whose products
`h*maxW` and `w*maxH` stay below `2^63` — so the Go int64 arithmetic does
not overflow: if `w < maxW` and `h < maxH` then `MaxSize` is the identity;
otherwise, when `w > h` the result is `(maxW, h*maxW/w)` with integer
truncation, and symmetrically `(w*maxH/h, maxH)` when `w ≤ h`; in either
scaling case the scaled dimension is within one pixel of the exact
aspect-preserving value and the larger of the two output dimensions equals
its bound. -/
theorem maxSize_contract (w h maxW maxH : Int)
    (hw : 0 < w) (hh : 0 < h) (hmw : 0 < maxW) (hmh : 0 < maxH)
    (hbw : h * maxW < 2 ^ 63) (hbh : w * maxH < 2 ^ 63) :
    (w < maxW ∧ h < maxH → MaxSize w h maxW maxH = (w, h)) ∧
    (¬(w < maxW ∧ h < maxH) →
      (w > h →
        MaxSize w h maxW maxH = (maxW, Int.tdiv (h * maxW) w) ∧
        w * Int.tdiv (h * maxW) w ≤ h * maxW ∧
        h * maxW < w * (Int.tdiv (h * maxW) w + 1) ∧
        max (MaxSize w h maxW maxH).1 (MaxSize w h maxW maxH).2 = maxW) ∧
      (w ≤ h →
        MaxSize w h maxW maxH = (Int.tdiv (w * maxH) h, maxH) ∧
        h * Int.tdiv (w * maxH) h ≤ w * maxH ∧
        w * maxH < h * (Int.tdiv (w * maxH) h + 1) ∧
        max (MaxSize w h maxW maxH).1 (MaxSize w h maxW maxH).2 = maxH)) := by
  have hp63 : (0 : Int) < 2 ^ 63 := by norm_num
  constructor
  · intro hlt
    simp [MaxSize, hlt]
  · intro hnot
    constructor
    · intro hgt
      have hprod : 0 < h * maxW := mul_pos hh hmw
      have hm : goMul h maxW = h * maxW :=
        wrap64_id _ (by linarith) hbw
      have hq0 : 0 ≤ Int.tdiv (h * maxW) w :=
        Int.tdiv_nonneg (le_of_lt hprod) (le_of_lt hw)
      have hfb := tdiv_floor_bounds (h * maxW) w (le_of_lt hprod) hw
      have hqle : Int.tdiv (h * maxW) w ≤ h * maxW := by
        nlinarith [hfb.1, mul_nonneg (by linarith : (0 : Int) ≤ w - 1) hq0]
      have hd : goDiv (h * maxW) w = Int.tdiv (h * maxW) w :=
        wrap64_id _ (by linarith) (by linarith)
      have heq : MaxSize w h maxW maxH = (maxW, Int.tdiv (h * maxW) w) := by
        simp [MaxSize, hnot, hgt, hm, hd]
      refine ⟨heq, hfb.1, hfb.2, ?_⟩
      rw [heq]
      have hlt2 : w * Int.tdiv (h * maxW) w < w * maxW := by
        calc w * Int.tdiv (h * maxW) w ≤ h * maxW := hfb.1
          _ < w * maxW := by
            exact mul_lt_mul_of_pos_right hgt hmw
      have hqlt : Int.tdiv (h * maxW) w < maxW :=
        lt_of_mul_lt_mul_left hlt2 (le_of_lt hw)
      simp [max_eq_left (le_of_lt hqlt)]
    · intro hle
      have hngt : ¬(w > h) := not_lt.mpr hle
      have hprod : 0 < w * maxH := mul_pos hw hmh
      have hm : goMul w maxH = w * maxH :=
        wrap64_id _ (by linarith) hbh
      have hq0 : 0 ≤ Int.tdiv (w * maxH) h :=
        Int.tdiv_nonneg (le_of_lt hprod) (le_of_lt hh)
      have hfb := tdiv_floor_bounds (w * maxH) h (le_of_lt hprod) hh
      have hqle2 : Int.tdiv (w * maxH) h ≤ w * maxH := by
        nlinarith [hfb.1, mul_nonneg (by linarith : (0 : Int) ≤ h - 1) hq0]
      have hd : goDiv (w * maxH) h = Int.tdiv (w * maxH) h :=
        wrap64_id _ (by linarith) (by linarith)
      have heq : MaxSize w h maxW maxH = (Int.tdiv (w * maxH) h, maxH) := by
        simp [MaxSize, hnot, hngt, hm, hd]
      refine ⟨heq, hfb.1, hfb.2, ?_⟩
      rw [heq]
      have hle2 : h * Int.tdiv (w * maxH) h ≤ h * maxH := by
        calc h * Int.tdiv (w * maxH) h ≤ w * maxH := hfb.1
          _ ≤ h * maxH := mul_le_mul_of_nonneg_right hle (le_of_lt hmh)
      have hqle : Int.tdiv (w * maxH) h ≤ maxH :=
        le_of_mul_le_mul_left hle2 hh
      simp [max_eq_right hqle]

/-- Witness for `maxSize_contract`: the spec's end-to-end scenario A, a
native 200×50 image bounded by 100×100 decodes at 100×25. -/
theorem maxSize_contract_witness : MaxSize 200 50 100 100 = (100, 25) := by
  have h := (maxSize_contract 200 50 100 100 (by decide) (by decide)
    (by decide) (by decide) (by decide) (by decide)).2 (by decide)
  have h2 := (h.1 (by decide)).1
  rw [h2]
  decide

/-- C2 is false as it stands: at the strictly positive, int64-representable
input `(w, h, maxW, maxH) = (2^33, 2^32, 2^31, 1)` the scaling branch
computes `h*maxW = 2^63`, which wraps negative in Go's 64-bit arithmetic,
so the program returns height `-(2^30)` instead of the exact truncated
quotient `2^30`: the claimed truncation formula and the within-one-pixel
aspect bound both fail. -/
theorem maxSize_overflow_wraps :
    0 < (2 ^ 33 : Int) ∧ 0 < (2 ^ 32 : Int) ∧ 0 < (2 ^ 31 : Int) ∧
    0 < (1 : Int) ∧
    ¬((2 ^ 33 : Int) < 2 ^ 31 ∧ (2 ^ 32 : Int) < 1) ∧
    (2 ^ 33 : Int) > 2 ^ 32 ∧
    MaxSize (2 ^ 33) (2 ^ 32) (2 ^ 31) 1 = (2 ^ 31, -(2 ^ 30)) ∧
    Int.tdiv ((2 ^ 32 : Int) * 2 ^ 31) (2 ^ 33) = 2 ^ 30 ∧
    (MaxSize (2 ^ 33) (2 ^ 32) (2 ^ 31) 1).2
      ≠ Int.tdiv ((2 ^ 32 : Int) * 2 ^ 31) (2 ^ 33) ∧
    ¬((2 ^ 32 : Int) * 2 ^ 31
        < 2 ^ 33 * ((MaxSize (2 ^ 33) (2 ^ 32) (2 ^ 31) 1).2 + 1)) := by
  decide

/-- C10: `MaxSize` can scale up: with native 3×5 and bounds 2×100 (the
width meets its bound, the height does not) the output is 60×100 — both
dimensions strictly larger than the native ones and the output width
strictly exceeds its bound. -/
theorem maxSize_can_scale_up :
    ∃ w h maxW maxH : Int, 0 < w ∧ 0 < h ∧ 0 < maxW ∧ 0 < maxH ∧
      ((maxW ≤ w ∧ h < maxH) ∨ (w < maxW ∧ maxH ≤ h)) ∧
      w < (MaxSize w h maxW maxH).1 ∧ h < (MaxSize w h maxW maxH).2 ∧
      (maxW < (MaxSize w h maxW maxH).1 ∨ maxH < (MaxSize w h maxW maxH).2) :=
  ⟨3, 5, 2, 100, by decide⟩

/-! ## SanitizeString: output alphabet and length -/

/-- C7: for all inputs, `SanitizeString` preserves the length (in runes,
the unit `strings.Map` operates on) and every output rune is a letter, a
digit, `#`, `.`, or `_`. -/
theorem sanitize_chars_length (isL isD : Char → Bool) (s : GoStr) :
    (SanitizeString isL isD s).length = s.length ∧
    (SanitizeString isL isD s).all
      (fun c => isL c || isD c || c == '#' || c == '.' || c == '_') = true := by
  constructor
  · simp [SanitizeString]
  · rw [SanitizeString, List.all_map, List.all_eq_true]
    intro c _
    simp only [Function.comp, sanitizeRune]
    split
    · rename_i hkeep
      simp [hkeep]
    · simp

/-! ## The startup cleanup sweep -/

/-- A list is a prefix of itself extended by anything, for `goHasPref`. -/
theorem goHasPref_append (p s : GoStr) : goHasPref (p ++ s) p = true := by
  induction p with
  | nil => cases s <;> rfl
  | cons c cs ih => simp [goHasPref, ih]

/-- C8: the startup sweep deletes exactly the temp-directory entries whose
name starts with the cache prefix followed by `-` and that are not the
current cache directory; any old-version cache directory matches that rule,
while the current `DirName` is never deleted. -/
theorem cleanup_sweep_spec (entries : List GoStr) (d old : GoStr)
    (hold : old ≠ CacheHash) :
    (d ∈ cleanUpCache entries ↔
      d ∈ entries ∧ goHasPref d (CachePref ++ ['-']) = true ∧ d ≠ DirName) ∧
    (CachePref ++ '-' :: old ≠ DirName ∧
      goHasPref (CachePref ++ '-' :: old) (CachePref ++ ['-']) = true) ∧
    DirName ∉ cleanUpCache entries := by
  refine ⟨?_, ⟨?_, ?_⟩, ?_⟩
  · simp [cleanUpCache, List.mem_filter, and_assoc]
  · intro heq
    rw [DirName] at heq
    have h2 := List.append_cancel_left heq
    simp only [List.cons.injEq] at h2
    exact hold h2.2
  · have h3 : CachePref ++ '-' :: old = (CachePref ++ ['-']) ++ old := by
      simp
    rw [h3]
    exact goHasPref_append _ _
  · intro hmem
    simp [cleanUpCache, List.mem_filter] at hmem

/-! ## Trace lemmas for the fetch pipeline -/

/-- The trace of `download` is one of: nothing (acquire failed), a balanced
acquire/release pair, or a pair around a single GET of the request URL. -/
theorem download_trace_cases (env : Env) (url : GoStr) (pp : List Processor)
    (gif : Bool) :
    (download env url pp gif).2 = [] ∨
    (download env url pp gif).2 = [Ev.acquire, Ev.release] ∨
    (download env url pp gif).2 = [Ev.acquire, Ev.netGet url, Ev.release] := by
  by_cases ha : env.acquireOk = true
  · simp only [download, ha]
    split
    all_goals try split
    all_goals try split
    all_goals try split
    all_goals try split
    all_goals simp
    all_goals try split
    all_goals simp
  · have ha2 : env.acquireOk = false := by
      cases h : env.acquireOk
      · rfl
      · exact absurd h ha
    left
    simp [download, ha2]

/-- C6: whenever `download` acquires a throttler permit, its trace holds
exactly one acquire and exactly one release — on success, bad status,
transport failure and processing failure alike — so the permit count after
the call equals the permit count before it. -/
theorem throttle_release_balanced (env : Env) (url : GoStr)
    (pp : List Processor) (gif : Bool) (ha : env.acquireOk = true) :
    (download env url pp gif).2.count Ev.acquire = 1 ∧
    (download env url pp gif).2.count Ev.release = 1 := by
  rcases download_trace_cases env url pp gif with h | h | h
  · have h2 : Ev.acquire ∈ (download env url pp gif).2 := by
      simp [download, ha]
    rw [h] at h2
    simp at h2
  · rw [h]
    constructor <;> simp [List.count_cons]
  · rw [h]
    constructor <;> simp [List.count_cons]

/-- Witness for `throttle_release_balanced` at a concrete environment. -/
def envW : Env where
  tempDir := "/tmp".toList
  urlParse := fun _ => none
  isLetter := Char.isAlpha
  isDigit := Char.isDigit
  acquireOk := true
  newRequestOk := true
  net := fun _ => some (200, [7])
  readAllOk := true
  processStream := fun b _ => some b
  processAnimationStream := fun b _ => some b
  decodeOk := fun _ => true
  writeOk := true

theorem throttle_release_balanced_witness :
    (download envW ("u".toList) [] false).2.count Ev.acquire = 1 ∧
    (download envW ("u".toList) [] false).2.count Ev.release = 1 :=
  throttle_release_balanced envW ("u".toList) [] false rfl

/-- Every GET recorded by `download` is for exactly the URL it was given. -/
theorem download_netGet_eq (env : Env) (url : GoStr) (pp : List Processor)
    (gif : Bool) (u : GoStr)
    (hmem : Ev.netGet u ∈ (download env url pp gif).2) : u = url := by
  rcases download_trace_cases env url pp gif with h | h | h <;> rw [h] at hmem <;> simp_all

/-- `download` itself never writes to or removes from the disk. -/
theorem download_no_disk_ev (env : Env) (url : GoStr) (pp : List Processor)
    (gif : Bool) (p : GoStr) :
    Ev.diskWrite p ∉ (download env url pp gif).2 ∧
    Ev.diskRemove p ∉ (download env url pp gif).2 := by
  rcases download_trace_cases env url pp gif with h | h | h <;> rw [h] <;> simp

/-- The trace of `get` is the download trace, possibly extended by a single
write of the destination path. -/
theorem get_trace_cases (env : Env) (disk : Disk) (url dst : GoStr)
    (pp : List Processor) (gif : Bool) :
    (get' env disk url dst pp gif).2.2 = (download env url pp gif).2 ∨
    (get' env disk url dst pp gif).2.2
      = (download env url pp gif).2 ++ [Ev.diskWrite dst] := by
  rcases hdl : download env url pp gif with ⟨r, tr⟩
  cases r with
  | error e => left; simp [get', hdl]
  | ok b =>
    by_cases hw : env.writeOk = true
    · right; simp [get', hdl, hw]
    · left
      have hw2 : env.writeOk = false := by
        cases hx : env.writeOk
        · rfl
        · exact absurd hx hw
      simp [get', hdl, hw2]

/-- Every write recorded by `get` targets exactly the destination path it
was given. -/
theorem get_write_eq (env : Env) (disk : Disk) (url dst : GoStr)
    (pp : List Processor) (gif : Bool) (p : GoStr)
    (hmem : Ev.diskWrite p ∈ (get' env disk url dst pp gif).2.2) : p = dst := by
  rcases get_trace_cases env disk url dst pp gif with h | h <;> rw [h] at hmem
  · exact absurd hmem (download_no_disk_ev env url pp gif p).1
  · rcases List.mem_append.mp hmem with h2 | h2
    · exact absurd h2 (download_no_disk_ev env url pp gif p).1
    · simp_all

/-- Every GET recorded by `get` is for exactly the URL it was given; `get`
never removes a file. -/
theorem get_netGet_eq (env : Env) (disk : Disk) (url dst : GoStr)
    (pp : List Processor) (gif : Bool) (u p : GoStr) :
    (Ev.netGet u ∈ (get' env disk url dst pp gif).2.2 → u = url) ∧
    Ev.diskRemove p ∉ (get' env disk url dst pp gif).2.2 := by
  constructor
  · intro hmem
    rcases get_trace_cases env disk url dst pp gif with h | h <;> rw [h] at hmem
    · exact download_netGet_eq env url pp gif u hmem
    · rcases List.mem_append.mp hmem with h2 | h2
      · exact download_netGet_eq env url pp gif u h2
      · simp_all
  · intro hmem
    rcases get_trace_cases env disk url dst pp gif with h | h <;> rw [h] at hmem
    · exact (download_no_disk_ev env url pp gif p).2 hmem
    · rcases List.mem_append.mp hmem with h2 | h2
      · exact (download_no_disk_ev env url pp gif p).2 h2
      · simp_all

/-! ## Cache-hit and idempotence properties of the bind operations -/

/-- C3: a bind for a URL whose cache entry already decodes is served
entirely from disk: the result is success, the file system is untouched and
the trace is empty — no GET, no throttle permit, no disk write.  Moreover,
after any successful `SetImageScaledContext` bind, repeating the bind for
the same URL on the resulting file system is such a pure cache hit, so the
repeat issues zero network calls. -/
theorem cache_hit_no_network (env : Env) (disk : Disk) (url : GoStr)
    (w h : Int) (pp : List Processor) (b : Bytes)
    (hb : disk (TransformURL env url) = some b)
    (hdec : env.decodeOk b = true) :
    GetPixbufScaled env disk url w h pp = (Except.ok (), disk, []) ∧
    (∀ disk0 disk2 tr,
      SetImageScaledContext env disk0 url w h pp = (Except.ok (), disk2, tr) →
      SetImageScaledContext env disk2 url w h pp = (Except.ok (), disk2, [])) := by
  constructor
  · simp [GetPixbufScaled, getPixbufFromFile, hb, hdec]
  · intro disk0 disk2 tr hrun
    simp only [SetImageScaledContext] at hrun ⊢
    split at hrun
    · rename_i hhit
      simp only [Prod.mk.injEq, true_and] at hrun
      rw [← hrun.1, if_pos hhit]
    · rename_i hmiss
      split at hrun
      · simp at hrun
      · rename_i r disk3 tr3 hget
        split at hrun
        · rename_i hhit2
          simp only [Prod.mk.injEq, true_and] at hrun
          rw [← hrun.1, if_pos hhit2]
        · simp at hrun

/-- A file system holding decodable content at every path. -/
def diskH : Disk := fun _ => some [7]

/-- The empty file system. -/
def diskE : Disk := fun _ => none

theorem cache_hit_no_network_witness :
    GetPixbufScaled envW diskH ("u".toList) 0 0 []
      = (Except.ok (), diskH, []) :=
  (cache_hit_no_network envW diskH ("u".toList) 0 0 [] [7] rfl rfl).1

/-- C9: when the initial cache probe misses, the download and the disk
write succeed, but the freshly persisted bytes fail to decode, the bind
removes the just-written cache file before returning the error: the final
file system has no entry at the cache key and the trace records the
removal. -/
theorem failed_decode_removes_entry (env : Env) (disk : Disk) (url : GoStr)
    (w h : Int) (pp : List Processor) (b : Bytes) (tr : List Ev)
    (hmiss : setImageFromFile env disk (TransformURL env (bindRequestURL url))
      (bindRequestGif url) w h = false)
    (hdl : download env (bindRequestURL url) pp (bindRequestGif url)
      = (Except.ok b, tr))
    (hw : env.writeOk = true)
    (hdec : env.decodeOk b = false) :
    (SetImageScaledContext env disk url w h pp).1
      = Except.error DlErr.decodeFailed ∧
    (SetImageScaledContext env disk url w h pp).2.1
      (TransformURL env (bindRequestURL url)) = none ∧
    Ev.diskRemove (TransformURL env (bindRequestURL url))
      ∈ (SetImageScaledContext env disk url w h pp).2.2 := by
  have hsif : setImageFromFile env
      (storeWrite disk (TransformURL env (bindRequestURL url)) b)
      (TransformURL env (bindRequestURL url)) (bindRequestGif url) w h = false := by
    simp [setImageFromFile, storeWrite, hdec]
  refine ⟨?_, ?_, ?_⟩ <;>
    simp [SetImageScaledContext, hmiss, get', hdl, hw, hsif, storeRemove]

/-- The environment `envW` with a decoder that rejects everything. -/
def envD : Env := { envW with decodeOk := fun _ => false }

theorem failed_decode_removes_entry_witness :
    (SetImageScaledContext envD diskE ("u".toList) 0 0 []).2.1
      (TransformURL envD (bindRequestURL ("u".toList))) = none :=
  (failed_decode_removes_entry envD diskE ("u".toList) 0 0 [] [7]
    [Ev.acquire, Ev.netGet ("u".toList), Ev.release] rfl rfl rfl rfl).2.1

/-- The trace of `SetImageScaledContext` is empty (cache hit), the `get'`
trace, or the `get'` trace extended with one removal of the cache key. -/
theorem setImage_trace_cases (env : Env) (disk : Disk) (url : GoStr)
    (w h : Int) (pp : List Processor) :
    (SetImageScaledContext env disk url w h pp).2.2 = [] ∨
    (SetImageScaledContext env disk url w h pp).2.2
      = (get' env disk (bindRequestURL url)
          (TransformURL env (bindRequestURL url)) pp (bindRequestGif url)).2.2 ∨
    (SetImageScaledContext env disk url w h pp).2.2
      = (get' env disk (bindRequestURL url)
          (TransformURL env (bindRequestURL url)) pp (bindRequestGif url)).2.2
        ++ [Ev.diskRemove (TransformURL env (bindRequestURL url))] := by
  simp only [SetImageScaledContext]
  split
  · left; rfl
  · split
    · rename_i e disk2 tr2 hget
      right; left; simp [hget]
    · rename_i r disk2 tr2 hget
      split
      · right; left; simp [hget]
      · right; right; simp [hget]

/-- The trace of `GetPixbufScaled` is empty (cache hit) or the `get'`
trace for the unmodified URL. -/
theorem getPixbuf_trace_cases (env : Env) (disk : Disk) (url : GoStr)
    (w h : Int) (pp : List Processor) :
    (GetPixbufScaled env disk url w h pp).2.2 = [] ∨
    (GetPixbufScaled env disk url w h pp).2.2
      = (get' env disk url (TransformURL env url) pp false).2.2 := by
  simp only [GetPixbufScaled]
  split
  · left; rfl
  · split
    · rename_i e disk2 tr2 hget
      right; simp [hget]
    · rename_i r disk2 tr2 hget
      split
      · right; simp [hget]
      · right; simp [hget]

/-! ## The URL rewrite of SetImageScaledContext (C1) -/

/-- C1 (amended): a request through `SetImageScaledContext` is rewritten
before it is issued — when the URL contains `"gif"`, every occurrence is
replaced by `"png"` and the animated flag is forced to `false` (so the flag
actually used is always `false`).  After that rewrite the request is fixed:
every GET in the trace fetches exactly the rewritten URL, every disk write
and removal targets exactly the cache key of the rewritten URL, and for a
URL not containing `"gif"` the rewritten URL is the given URL itself. -/
theorem bind_request_url_rewrite (env : Env) (disk : Disk) (url : GoStr)
    (w h : Int) (pp : List Processor) :
    (∀ u, Ev.netGet u ∈ (SetImageScaledContext env disk url w h pp).2.2 →
      u = bindRequestURL url) ∧
    (∀ p, Ev.diskWrite p ∈ (SetImageScaledContext env disk url w h pp).2.2 →
      p = TransformURL env (bindRequestURL url)) ∧
    (∀ p, Ev.diskRemove p ∈ (SetImageScaledContext env disk url w h pp).2.2 →
      p = TransformURL env (bindRequestURL url)) ∧
    bindRequestGif url = false ∧
    (goContains url ("gif".toList) = false → bindRequestURL url = url) := by
  refine ⟨?_, ?_, ?_, ?_, ?_⟩
  · intro u hmem
    rcases setImage_trace_cases env disk url w h pp with ht | ht | ht <;>
      rw [ht] at hmem
    · simp at hmem
    · exact (get_netGet_eq env disk (bindRequestURL url)
        (TransformURL env (bindRequestURL url)) pp (bindRequestGif url) u u).1 hmem
    · rcases List.mem_append.mp hmem with h2 | h2
      · exact (get_netGet_eq env disk (bindRequestURL url)
          (TransformURL env (bindRequestURL url)) pp (bindRequestGif url) u u).1 h2
      · simp at h2
  · intro p hmem
    rcases setImage_trace_cases env disk url w h pp with ht | ht | ht <;>
      rw [ht] at hmem
    · simp at hmem
    · exact get_write_eq env disk (bindRequestURL url)
        (TransformURL env (bindRequestURL url)) pp (bindRequestGif url) p hmem
    · rcases List.mem_append.mp hmem with h2 | h2
      · exact get_write_eq env disk (bindRequestURL url)
          (TransformURL env (bindRequestURL url)) pp (bindRequestGif url) p h2
      · simp at h2
  · intro p hmem
    rcases setImage_trace_cases env disk url w h pp with ht | ht | ht <;>
      rw [ht] at hmem
    · simp at hmem
    · exact absurd hmem (get_netGet_eq env disk (bindRequestURL url)
        (TransformURL env (bindRequestURL url)) pp (bindRequestGif url) p p).2
    · rcases List.mem_append.mp hmem with h2 | h2
      · exact absurd h2 (get_netGet_eq env disk (bindRequestURL url)
          (TransformURL env (bindRequestURL url)) pp (bindRequestGif url) p p).2
      · simp_all
  · by_cases hc : goContains url ("gif".toList) = true
    · simp [bindRequestGif, hc]
    · have hc2 : goContains url ("gif".toList) = false := by
        cases hx : goContains url ("gif".toList)
        · rfl
        · exact absurd hx hc
      simp [bindRequestGif, hc2]
  · intro hc
    have hn : ¬(goContains url ("gif".toList) = true) := by rw [hc]; simp
    rw [bindRequestURL, if_neg hn]

theorem bind_request_url_rewrite_witness :
    ("a.png".toList) = bindRequestURL ("a.gif".toList) ∧
    bindRequestGif ("a.gif".toList) = false :=
  ⟨(bind_request_url_rewrite envW diskE ("a.gif".toList) 0 0 []).1
      ("a.png".toList) (by decide),
    (bind_request_url_rewrite envW diskE ("a.gif".toList) 0 0 []).2.2.2.1⟩

/-- C1 is false as stated: for the request URL `a.gif` the URL actually
fetched over the network is `a.png`, not the URL given in the request; the
disk write targets the cache key of `a.png`, whose key differs from the
key of the given URL; no GET for the given URL occurs; and the animated
flag, `true` by the `strings.Contains` computation on the given URL, is
used as `false`. -/
theorem setImage_rewrites_gif_url :
    Ev.netGet ("a.png".toList)
      ∈ (SetImageScaledContext envW diskE ("a.gif".toList) 0 0 []).2.2 ∧
    ("a.png".toList) ≠ ("a.gif".toList) ∧
    Ev.netGet ("a.gif".toList)
      ∉ (SetImageScaledContext envW diskE ("a.gif".toList) 0 0 []).2.2 ∧
    Ev.diskWrite (TransformURL envW ("a.png".toList))
      ∈ (SetImageScaledContext envW diskE ("a.gif".toList) 0 0 []).2.2 ∧
    TransformURL envW ("a.png".toList) ≠ TransformURL envW ("a.gif".toList) ∧
    goContains ("a.gif".toList) ("gif".toList) = true ∧
    bindRequestGif ("a.gif".toList) = false := by
  refine ⟨by decide, by decide, by decide, by decide, by decide, by decide, by decide⟩

/-! ## The cache key is a function of the URL alone (C5) -/

/-- C5: the cache key used by a bind is `TransformURL` of the URL alone:
every disk write performed by two binds for the same URL — whatever their
bounding boxes and processor chains — targets one and the same path, the
key derivation is deterministic, and the size suffix appended to the key is
empty, so the key coincides with the suffix-free derivation. -/
theorem cache_key_url_only (env : Env) (disk : Disk) (url : GoStr)
    (w1 h1 : Int) (pp1 : List Processor) (w2 h2 : Int) (pp2 : List Processor)
    (p q : GoStr)
    (hp : Ev.diskWrite p ∈ (GetPixbufScaled env disk url w1 h1 pp1).2.2)
    (hq : Ev.diskWrite q ∈ (GetPixbufScaled env disk url w2 h2 pp2).2.2) :
    p = TransformURL env url ∧ q = TransformURL env url ∧ p = q ∧
    TransformURL env url = cacheKeySpecWords env url := by
  have key : ∀ w h pp r, Ev.diskWrite r ∈ (GetPixbufScaled env disk url w h pp).2.2 →
      r = TransformURL env url := by
    intro w h pp r hmem
    rcases getPixbuf_trace_cases env disk url w h pp with ht | ht <;>
      rw [ht] at hmem
    · simp at hmem
    · exact get_write_eq env disk url (TransformURL env url) pp false r hmem
  have hp2 := key w1 h1 pp1 p hp
  have hq2 := key w2 h2 pp2 q hq
  refine ⟨hp2, hq2, hp2.trans hq2.symm, ?_⟩
  cases henv : env.urlParse url <;>
    simp [TransformURL, cacheKeySpecWords, henv]

theorem cache_key_url_only_witness :
    TransformURL envW ("u".toList) = cacheKeySpecWords envW ("u".toList) :=
  (cache_key_url_only envW diskE ("u".toList) 0 0 [] 9 9 [7]
    (TransformURL envW ("u".toList)) (TransformURL envW ("u".toList))
    (by decide) (by decide)).2.2.2

/-! ## Error classification of download (C4) -/

/-- Whether a download outcome is an error. -/
def isErr : Except DlErr Bytes → Bool
  | Except.error _ => true
  | Except.ok _ => false

/-- C4 (amended): for a fetch whose permit, request creation and transport
all succeed, `download` returns an error iff the status is outside 200..299
or the body step fails (the processor chain on a configured chain, the
whole-body read otherwise); and on a bad status the enclosing `get` returns
the status error with the file system untouched — no disk write occurs. -/
theorem download_status_errors (env : Env) (disk : Disk) (url dst : GoStr)
    (pp : List Processor) (gif : Bool) (status : Int) (body : Bytes)
    (ha : env.acquireOk = true) (hq : env.newRequestOk = true)
    (hn : env.net url = some (status, body)) :
    (isErr (download env url pp gif).1 = true ↔
      ((status < 200 ∨ status > 299) ∨
        (0 < pp.length ∧
          (if gif then env.processAnimationStream body pp
           else env.processStream body pp) = none) ∨
        (pp.length = 0 ∧ env.readAllOk = false))) ∧
    ((status < 200 ∨ status > 299) →
      get' env disk url dst pp gif
        = (Except.error (DlErr.badStatus status), disk,
            [Ev.acquire, Ev.netGet url, Ev.release])) := by
  by_cases hs : status < 200 ∨ status > 299
  · constructor
    · simp [download, ha, hq, hn, hs, isErr]
    · intro _
      simp [get', download, ha, hq, hn, hs]
  · constructor
    · by_cases hp : 0 < pp.length
      · have hp2 : pp.length ≠ 0 := Nat.pos_iff_ne_zero.mp hp
        cases hps : (if gif = true then env.processAnimationStream body pp
            else env.processStream body pp) <;>
          simp [download, ha, hq, hn, hs, hp, hp2, hps, isErr]
      · have hp0 : pp.length = 0 := Nat.eq_zero_of_not_pos hp
        cases hr : env.readAllOk <;>
          simp [download, ha, hq, hn, hs, hp0, hr, isErr]
    · intro hbad
      exact absurd hbad hs

/-- The environment `envW` with a 404-returning transport. -/
def envB : Env := { envW with net := fun _ => some (404, []) }

theorem download_status_errors_witness :
    get' envB diskE ("u".toList) ("d".toList) [] false
      = (Except.error (DlErr.badStatus 404), diskE,
          [Ev.acquire, Ev.netGet ("u".toList), Ev.release]) :=
  (download_status_errors envB diskE ("u".toList) ("d".toList) [] false 404 []
    rfl rfl rfl).2 (by decide)

/-- The environment `envW` with a failing processor chain. -/
def envP : Env := { envW with processStream := fun _ _ => none }

/-- C4 is false as stated: a fetch whose transport succeeds with status 200
(inside 200..299) still returns an error when the processor chain fails, so
an error does not imply a status outside 200..299. -/
theorem download_error_despite_good_status :
    envP.net ("u".toList) = some (200, [7]) ∧
    ¬((200 : Int) < 200 ∨ (200 : Int) > 299) ∧
    (download envP ("u".toList) [0] false).1
      = Except.error DlErr.processFailed := by
  refine ⟨rfl, by decide, rfl⟩

theorem cleanup_sweep_spec_witness :
    (CachePref ++ '-' :: ("old".toList)) ∈
      cleanUpCache [DirName, CachePref ++ '-' :: ("old".toList)] :=
  (cleanup_sweep_spec [DirName, CachePref ++ '-' :: ("old".toList)]
    (CachePref ++ '-' :: ("old".toList)) ("old".toList) (by decide)).1.mpr
    ⟨by decide, by decide, by decide⟩
